import Mathlib

/-!
Shallow embedding of `src/pre_process.py` (a KGML/GAF → SQLite ETL pipeline)
and verification of its specification.

Modelling conventions:
* File-system access is abstracted: a KGML source is `Except String (List Entry)`
  (`.error msg` models a file that cannot be opened or parsed as XML — the
  exception caught at `pre_process.py:18-23`); a GAF source is
  `Option (List String)` (`none` models a missing file, `some lines` the raw
  text lines handed to `pandas.read_csv`).
* Python's `str.split(" ")` (split on each single space character, keeping
  empty fields) is modelled character-by-character by `pySplit`.
* A raised-and-uncaught Python exception is modelled by `Except.error`;
  a caught exception that produces a normal return value is modelled by the
  returned value itself (plus the printed diagnostic, collected as data).
* The SQLite store is modelled by `Db`: each table is `Option (List row)`,
  `none` meaning the table does not exist.  `INSERT OR IGNORE` into a table
  whose primary key is the inserted column ignores exactly the rows whose
  key is already present.
-/

/-- One `<entry …>` element of a KGML document: the `id`, `name` and `type`
attributes as read by `entry.get(…)`, which yields `None` when the attribute
is absent. -/
structure Entry where
  id : Option String
  name : Option String
  etype : Option String
deriving DecidableEq

/-- One record of the list returned by `parse_kgml`
(the dict built at `pre_process.py:34-41`). -/
structure PathwayEntry where
  entry_id : Option String
  gene_id : String
  entry_type : Option String
  disease : String
deriving DecidableEq

/-- The one uncaught exception the pathway extractor can raise:
`entry.get("name")` returned `None` and `None.split(" ")` fails
(`AttributeError` at `pre_process.py:31`, outside the `try` block). -/
inductive Exn where
  | attributeError
deriving DecidableEq

/-- Python's `s.split(sep)` for a one-character separator `sep`, on the
character list of `s`: split at every occurrence of `sep`, keeping empty
fields, so `"".split(" ") = [""]` and `"a  b".split(" ") = ["a","","b"]`. -/
def pySplit (sep : Char) : List Char → List (List Char)
  | [] => [[]]
  | c :: cs =>
    let r := pySplit sep cs
    if c = sep then [] :: r
    else (c :: r.headI) :: r.tail

/-- `entry_name.split(" ")` on strings (`pre_process.py:31`). -/
def pySplitSpace (s : String) : List String :=
  (pySplit ' ' s.data).map List.asString

/-- The entry loop of `parse_kgml` (`pre_process.py:25-43`): for each entry,
read its attributes, split the name on single spaces and emit one record per
token; an entry whose `name` attribute is absent raises. -/
def kgmlEntries (disease : String) : List Entry → Except Exn (List PathwayEntry)
  | [] => .ok []
  | e :: rest =>
    match e.name with
    | none => .error .attributeError
    | some nm =>
      match kgmlEntries disease rest with
      | .error err => .error err
      | .ok others =>
        .ok ((pySplitSpace nm).map
          (fun g => ⟨e.id, g, e.etype, disease⟩) ++ others)

/-- `parse_kgml` (`pre_process.py:7-43`).  The first component is the
returned list (or the uncaught exception), the second the diagnostics
printed; a source that cannot be opened/parsed is caught and yields the
empty list plus one diagnostic line. -/
def parse_kgml (file_path : String) (src : Except String (List Entry))
    (disease : String) : Except Exn (List PathwayEntry) × List String :=
  match src with
  | .error e => (.ok [], ["Error parsing " ++ file_path ++ ": " ++ e])
  | .ok entries => (kgmlEntries disease entries, [])

/-- Number of whitespace-separated tokens of a string, as the specification
words it ("the whitespace-token count of their name attribute"): maximal
runs of non-whitespace characters.  Stated via split-on-whitespace with
empty fields dropped.  This is the specification-side comparison target,
not code translated from the source. -/
def whitespaceTokenCount (s : String) : Nat :=
  (((s.data.splitOnP (fun c => c.isWhitespace)).filter (fun t => t ≠ [])).length)

/-- The claim's per-document record count: Σ over entries of the
whitespace-token count of the name attribute. -/
def wsTokenSum (entries : List Entry) : Nat :=
  (entries.map (fun e => whitespaceTokenCount (e.name.getD ""))).sum

/-- Length of an `.ok` result, 0 for an error. -/
def okLength : Except Exn (List PathwayEntry) → Nat
  | .ok l => l.length
  | .error _ => 0

/-- Records of an `.ok` result, `[]` for an error. -/
def okRecords : Except Exn (List PathwayEntry) → List PathwayEntry
  | .ok l => l
  | .error _ => []

-- Basic facts about `pySplit`.

theorem pySplit_ne_nil (sep : Char) (l : List Char) : pySplit sep l ≠ [] := by
  cases l with
  | nil => simp [pySplit]
  | cons c cs =>
    simp only [pySplit]
    split <;> simp

theorem pySplit_length (sep : Char) (l : List Char) :
    (pySplit sep l).length = l.countP (fun c => c = sep) + 1 := by
  induction l with
  | nil => simp [pySplit]
  | cons c cs ih =>
    simp only [pySplit]
    by_cases h : c = sep
    · simp [h, ih, List.countP_cons]
    · have hne := pySplit_ne_nil sep cs
      rcases hr : pySplit sep cs with _ | ⟨r, rs⟩
      · exact absurd hr hne
      · simp only [if_neg h, hr, List.headI, List.tail]
        rw [hr] at ih
        simp only [List.length_cons] at ih ⊢
        simpa [List.countP_cons, h] using ih

-- Well-spaced names: non-empty, no leading/trailing separator, no two
-- adjacent separators.  Under this condition single-space splitting
-- produces no empty token.

/-- No two adjacent characters of the list both equal `sep`. -/
def noAdjSep (sep : Char) : List Char → Bool
  | [] => true
  | [_] => true
  | a :: b :: rest => !(a == sep && b == sep) && noAdjSep sep (b :: rest)

/-- The last character, when present, differs from `sep`. -/
def lastNotSep (sep : Char) : List Char → Bool
  | [] => true
  | [c] => c != sep
  | _ :: c :: rest => lastNotSep sep (c :: rest)

/-- A well-spaced name: non-empty, neither starts nor ends with `sep`,
and has no two adjacent occurrences of `sep`. -/
def goodName (sep : Char) (l : List Char) : Bool :=
  (match l with
   | [] => false
   | c :: _ => c != sep) &&
  lastNotSep sep l && noAdjSep sep l

theorem noAdjSep_of_cons {sep a : Char} {l : List Char}
    (h : noAdjSep sep (a :: l) = true) : noAdjSep sep l = true := by
  cases l with
  | nil => simp [noAdjSep]
  | cons b rest =>
    simp only [noAdjSep, Bool.and_eq_true] at h
    exact h.2

theorem lastNotSep_of_cons {sep a : Char} {l : List Char} (hl : l ≠ [])
    (h : lastNotSep sep (a :: l) = true) : lastNotSep sep l = true := by
  cases l with
  | nil => exact absurd rfl hl
  | cons b rest => simpa [lastNotSep] using h

theorem pySplit_cons_sep {sep c : Char} {cs : List Char} (h : c = sep) :
    pySplit sep (c :: cs) = [] :: pySplit sep cs := by
  simp [pySplit, h]

theorem pySplit_cons_not_sep {sep c : Char} {cs : List Char} (h : ¬ c = sep) :
    pySplit sep (c :: cs) =
      (c :: (pySplit sep cs).headI) :: (pySplit sep cs).tail := by
  simp [pySplit, h]

theorem pySplit_tail_ne_nil (sep : Char) :
    ∀ l : List Char, noAdjSep sep l = true → lastNotSep sep l = true →
      ∀ t ∈ (pySplit sep l).tail, t ≠ [] := by
  intro l
  induction l with
  | nil => intro _ _ t ht; simp [pySplit] at ht
  | cons a l ih =>
    intro hadj hlast t ht
    by_cases ha : a = sep
    · -- the head character is a separator; the rest of the list must be a
      -- non-empty list starting with a non-separator
      cases l with
      | nil =>
        simp [lastNotSep, ha] at hlast
      | cons b rest =>
        rw [pySplit_cons_sep ha, List.tail_cons] at ht
        have hb : ¬ (b = sep) := by
          simp only [noAdjSep, Bool.and_eq_true, Bool.not_eq_true',
            Bool.and_eq_false_iff, beq_eq_false_iff_ne, ne_eq] at hadj
          rcases hadj.1 with h' | h'
          · exact absurd ha h'
          · exact h'
        have hadj' : noAdjSep sep (b :: rest) = true := noAdjSep_of_cons hadj
        have hlast' : lastNotSep sep (b :: rest) = true :=
          lastNotSep_of_cons (by simp) hlast
        rw [pySplit_cons_not_sep hb] at ht
        rcases List.mem_cons.mp ht with h' | h'
        · subst h'; simp
        · apply ih hadj' hlast' t
          rw [pySplit_cons_not_sep hb, List.tail_cons]
          exact h'
    · -- head character is not a separator: the tail of the split is the
      -- tail of the split of the rest
      rw [pySplit_cons_not_sep ha, List.tail_cons] at ht
      cases l with
      | nil => simp [pySplit] at ht
      | cons b rest =>
        exact ih (noAdjSep_of_cons hadj)
          (lastNotSep_of_cons (by simp) hlast) t ht

theorem pySplit_good_ne_nil (sep : Char) (l : List Char)
    (h : goodName sep l = true) : ∀ t ∈ pySplit sep l, t ≠ [] := by
  intro t ht
  cases l with
  | nil => simp [goodName] at h
  | cons a l2 =>
    simp only [goodName, Bool.and_eq_true, bne_iff_ne, ne_eq] at h
    obtain ⟨⟨ha, hlast⟩, hadj⟩ := h
    simp only [pySplit, if_neg ha] at ht
    rcases List.mem_cons.mp ht with h' | h'
    · subst h'; simp
    · exact pySplit_tail_ne_nil sep (a :: l2) hadj hlast t
        (by simp only [pySplit, if_neg ha, List.tail_cons]; exact h')

-- GAF parsing (`parse_gaf`, `pre_process.py:47-84`).

/-- `pandas.DataFrame.drop_duplicates`: keep the first occurrence of each
value, preserving order. -/
def dropDuplicates {α : Type} [DecidableEq α] (l : List α) : List α :=
  l.foldl (fun acc x => if x ∈ acc then acc else acc ++ [x]) []

/-- The tokenization performed by `pandas.read_csv(sep="\t", comment="!",
header=None)`: lines starting with the comment marker and blank lines are
skipped, every other line is split on tabs. -/
def gafRows (lines : List String) : List (List String) :=
  (lines.filter (fun l =>
    !(match l.data with
      | '!' :: _ => true
      | _ => false) && l != "")).map
    (fun l => (pySplit '\t' l.data).map List.asString)

/-- The exceptions `parse_gaf` can raise, none of which are caught:
`FileNotFoundError` from `read_csv` on a missing file; `EmptyDataError`
when no data line remains; `ParserError` when a later row has more fields
than the first; `ValueError` from the 17-name column assignment
(`pre_process.py:62-80`) when the frame does not have 17 columns. -/
inductive GafError where
  | missingFile
  | emptyData
  | parserError
  | columnMismatch
deriving DecidableEq

/-- The frame construction and column selection of `parse_gaf`
(`pre_process.py:59-84`) over tokenized rows: name the 17 columns, keep
`DB_Object_Symbol` (index 2) and `GO_ID` (index 4) and drop duplicate
pairs.  Rows shorter than the first row are padded with missing values by
pandas, modelled by `""` via `getD`; the `dtype` declaration keeps both
retained columns textual, so they are modelled as `String`. -/
def gafFrame (rows : List (List String)) :
    Except GafError (List (String × String)) :=
  match rows with
  | [] => .error .emptyData
  | r0 :: rest =>
    if rest.any (fun r => r0.length < r.length) then .error .parserError
    else if r0.length = 17 then
      .ok (dropDuplicates
        ((r0 :: rest).map (fun r => (r.getD 2 "", r.getD 4 ""))))
    else .error .columnMismatch

/-- `parse_gaf` (`pre_process.py:47-84`): tokenize the table source and
build the two-column deduplicated frame; a missing file raises
`FileNotFoundError`. -/
def parse_gaf (src : Option (List String)) :
    Except GafError (List (String × String)) :=
  match src with
  | none => .error .missingFile
  | some lines => gafFrame (gafRows lines)

-- The relational store (`create_tables`, `insert_*`,
-- `pre_process.py:87-159`).

/-- The SQLite store: one optional row list per table, `none` when the
table does not exist. -/
structure Db where
  genes : Option (List String)
  pathways : Option (List PathwayEntry)
  gene_go_associations : Option (List (String × String))
deriving DecidableEq

/-- `create_tables` (`pre_process.py:130-159`): three
`CREATE TABLE IF NOT EXISTS` statements — a table that exists is left
untouched, a missing one is created empty.  Never raises. -/
def create_tables (db : Db) : Db :=
  { genes := some (db.genes.getD []),
    pathways := some (db.pathways.getD []),
    gene_go_associations := some (db.gene_go_associations.getD []) }

/-- One `INSERT OR IGNORE INTO genes (gene_id) VALUES (?)`
(`pre_process.py:96`) on the row list of the `genes` table, whose primary
key is `gene_id`: a duplicate key is ignored, never an error. -/
def insertGeneRow (t : List String) (g : String) : List String :=
  if g ∈ t then t else t ++ [g]

/-- `insert_genes` (`pre_process.py:87-96`) on the row list of the `genes`
table. -/
def insert_genes (data : List String) (t : List String) : List String :=
  data.foldl insertGeneRow t

/-- `insert_pathways` (`pre_process.py:100-112`): unconditional
`INSERT INTO pathways …` per record.  Raises `sqlite3.OperationalError`
when the table does not exist (SQLite does not enforce the declared
foreign key by default, so no other failure arises). -/
def insert_pathways (data : List PathwayEntry) (db : Db) : Except String Db :=
  match db.pathways with
  | none => .error "no such table: pathways"
  | some rows => .ok { db with pathways := some (rows ++ data) }

-- The orchestration (`main`, `pre_process.py:162-200`), modelled as the
-- ordered trace of store operations it executes.

/-- One store operation executed by `main`. -/
inductive DbOp where
  | createGenesTable
  | createPathwaysTable
  | createAssocTable
  | insertGene (gene_id : String)
  | insertPathway (row : PathwayEntry)
  | insertAssoc (gene_id go_id : String)
  | commit
  | close
deriving DecidableEq

/-- An uncaught exception terminating `main`. -/
inductive RunError where
  | kgml (e : Exn)
  | gaf (e : GafError)
deriving DecidableEq

def isPathwayOp : DbOp → Bool
  | .insertPathway _ => true
  | _ => false

def isGeneOp : DbOp → Bool
  | .insertGene _ => true
  | _ => false

def isAssocOp : DbOp → Bool
  | .insertAssoc _ _ => true
  | _ => false

/-- The per-document loop of `main` (`pre_process.py:185-189`): for each
document, parse it and insert its pathway rows, accumulating the gene ids;
an uncaught `parse_kgml` exception stops the loop (and the run) there.
Returns the insert operations performed, the gene ids seen, and the
exception if one was raised. -/
def processDocs : List (String × Except String (List Entry) × String) →
    List DbOp × List String × Option Exn
  | [] => ([], [], none)
  | (fp, src, dis) :: rest =>
    match parse_kgml fp src dis with
    | (.error e, _) => ([], [], some e)
    | (.ok records, _) =>
      let (ops, genes, err) := processDocs rest
      (records.map DbOp.insertPathway ++ ops,
       records.map PathwayEntry.gene_id ++ genes, err)

/-- The three `CREATE TABLE` statements of `create_tables`, in program
order. -/
def schemaOps : List DbOp :=
  [.createGenesTable, .createPathwaysTable, .createAssocTable]

/-- The trace of store operations executed by `main`
(`pre_process.py:162-200`), given the parsed pathway sources and the GAF
source, together with the uncaught exception if the run aborts.  `main`
iterates `list(unique_genes)` over a Python `set`, whose order is
unspecified; the model fixes first-occurrence order — no claim below
depends on the order chosen. -/
def mainRun (docs : List (String × Except String (List Entry) × String))
    (gafSrc : Option (List String)) : List DbOp × Option RunError :=
  match processDocs docs with
  | (ops, _, some e) => (schemaOps ++ ops, some (.kgml e))
  | (ops, genes, none) =>
    let geneOps := (dropDuplicates genes).map DbOp.insertGene
    match parse_gaf gafSrc with
    | .error ge => (schemaOps ++ ops ++ geneOps, some (.gaf ge))
    | .ok pairs =>
      (schemaOps ++ ops ++ geneOps ++
        pairs.map (fun p => DbOp.insertAssoc p.1 p.2) ++
        [.commit, .close], none)

-- Helper lemmas for the pathway extractor.

theorem asString_ne_empty {l : List Char} (h : l ≠ []) :
    List.asString l ≠ "" := by
  intro heq
  have h2 := congrArg String.data heq
  simp [List.asString] at h2
  exact h h2

/-- When every entry has a `name` attribute, the entry loop returns the
records of each entry in document order, one per single-space token. -/
theorem kgmlEntries_ok (disease : String) (entries : List Entry)
    (h : ∀ e ∈ entries, e.name.isSome) :
    kgmlEntries disease entries =
      .ok ((entries.map (fun e => (pySplitSpace (e.name.getD "")).map
        (fun g => PathwayEntry.mk e.id g e.etype disease))).flatten) := by
  induction entries with
  | nil => simp [kgmlEntries]
  | cons e rest ih =>
    have he : e.name.isSome := h e (by simp)
    rcases hn : e.name with _ | nm
    · rw [hn] at he; simp at he
    · have ih' := ih (fun x hx => h x (by simp [hx]))
      simp [kgmlEntries, hn, ih']

theorem kgmlEntries_tokens_ne_empty (disease : String) :
    ∀ entries : List Entry,
      (∀ e ∈ entries, e.name.isSome ∧ goodName ' ' ((e.name.getD "").data) = true) →
      ∀ recs, kgmlEntries disease entries = .ok recs →
      ∀ r ∈ recs, r.gene_id ≠ "" := by
  intro entries
  induction entries with
  | nil =>
    intro _ recs hrecs r hr
    simp [kgmlEntries] at hrecs
    subst hrecs
    simp at hr
  | cons e rest ih =>
    intro h recs hrecs r hr
    obtain ⟨hsome, hgood⟩ := h e (by simp)
    rcases hn : e.name with _ | nm
    · rw [hn] at hsome; simp at hsome
    · rw [hn] at hgood
      simp only [Option.getD_some] at hgood
      simp only [kgmlEntries, hn] at hrecs
      rcases hrest : kgmlEntries disease rest with err | others
      · rw [hrest] at hrecs; exact absurd hrecs (by simp)
      · rw [hrest] at hrecs
        simp only [Except.ok.injEq] at hrecs
        subst hrecs
        rcases List.mem_append.mp hr with h' | h'
        · obtain ⟨g, hg, hrg⟩ := List.mem_map.mp h'
          obtain ⟨t, ht, hgt⟩ := List.mem_map.mp hg
          have htne : t ≠ [] := pySplit_good_ne_nil ' ' nm.data hgood t ht
          rw [← hrg]
          simpa [← hgt] using asString_ne_empty htne
        · exact ih (fun x hx => h x (by simp [hx])) others hrest r h'

-- C1: record count of the pathway extractor.

/-- The document used to refute the claimed whitespace-token count: one
entry whose name contains two adjacent spaces. -/
def C1cexDoc : List Entry := [⟨some "1", some "a  b", some "gene"⟩]

/-- A well-spaced document (the specification's end-to-end scenario). -/
def goodDoc : List Entry := [⟨some "10", some "BRCA1 TP53", some "gene"⟩]

/-- C1 counterexample: on a name with two adjacent spaces, `parse_kgml`
emits 3 records (split on every single space, empty fields kept) while the
whitespace-token count of the document is 2, so the emitted-record count
does not equal the whitespace-token sum. -/
theorem C1_counterexample :
    okLength (parse_kgml "doc.xml" (.ok C1cexDoc) "d").1 = 3 ∧
    wsTokenSum C1cexDoc = 2 ∧
    ¬ okLength (parse_kgml "doc.xml" (.ok C1cexDoc) "d").1 = wsTokenSum C1cexDoc := by
  refine ⟨by decide, by decide, by decide⟩

/-- C1 (amended): for every pathway document whose entries all carry a
`name` attribute, `parse_kgml` emits, per entry and in document order, one
record per field of the name split on single space characters (empty
fields included — this equals the whitespace-token count only for
well-spaced names), each record copying the entry's id and type and the
supplied disease label; the total record count is the sum over entries of
the single-space-split field counts. -/
theorem C1_record_count (file_path disease : String)
    (entries : List Entry) (h : ∀ e ∈ entries, e.name.isSome) :
    (parse_kgml file_path (.ok entries) disease).1 =
      .ok ((entries.map (fun e => (pySplitSpace (e.name.getD "")).map
        (fun g => PathwayEntry.mk e.id g e.etype disease))).flatten) ∧
    okLength (parse_kgml file_path (.ok entries) disease).1 =
      (entries.map (fun e => (pySplitSpace (e.name.getD "")).length)).sum := by
  have hk := kgmlEntries_ok disease entries h
  refine ⟨by simpa [parse_kgml] using hk, ?_⟩
  simp [parse_kgml, hk, okLength, List.length_flatten, List.map_map,
    Function.comp_def, List.length_map]

/-- C1 witness: the amended count theorem applied to the specification's
end-to-end scenario document. -/
theorem C1_witness :
    okLength (parse_kgml "hsa05210.xml" (.ok goodDoc) "Colorectal cancer").1 =
      (goodDoc.map (fun e => (pySplitSpace (e.name.getD "")).length)).sum :=
  (C1_record_count "hsa05210.xml" "Colorectal cancer" goodDoc (by decide)).2

-- C2: emitted gene tokens.

/-- The document used to refute the no-empty-token claim: an entry whose
name attribute is the empty string. -/
def C2cexDoc : List Entry := [⟨some "2", some "", some "gene"⟩]

/-- C2 counterexample: an entry whose `name` attribute is `""` makes
`parse_kgml` emit exactly one record whose `gene_id` is the empty string
(`"".split(" ") == [""]`). -/
theorem C2_counterexample :
    (okRecords (parse_kgml "doc.xml" (.ok C2cexDoc) "d").1).map
      PathwayEntry.gene_id = [""] := by
  decide

/-- C2 (amended): every record emitted by `parse_kgml` has a non-empty
`gene_id`, provided each entry's name is non-empty, neither starts nor
ends with a space, and contains no two adjacent spaces. -/
theorem C2_gene_tokens_nonempty (file_path disease : String)
    (entries : List Entry)
    (h : ∀ e ∈ entries, e.name.isSome ∧ goodName ' ' ((e.name.getD "").data) = true) :
    ∀ recs, (parse_kgml file_path (.ok entries) disease).1 = .ok recs →
      ∀ r ∈ recs, r.gene_id ≠ "" := by
  intro recs hrecs
  exact kgmlEntries_tokens_ne_empty disease entries h recs
    (by simpa [parse_kgml] using hrecs)

/-- C2 witness: both tokens of the end-to-end scenario document are
non-empty. -/
theorem C2_witness :
    PathwayEntry.gene_id
      ⟨some "10", "BRCA1", some "gene", "Colorectal cancer"⟩ ≠ "" :=
  C2_gene_tokens_nonempty "hsa05210.xml" "Colorectal cancer" goodDoc
    (by decide)
    [⟨some "10", "BRCA1", some "gene", "Colorectal cancer"⟩,
     ⟨some "10", "TP53", some "gene", "Colorectal cancer"⟩]
    (by rfl) _ (by decide)

-- C5: unreadable/malformed pathway documents are recoverable.

/-- C5: a pathway source that cannot be opened or parsed makes
`parse_kgml` return the empty list together with one printed diagnostic —
it does not raise — and the per-document loop of `main` processes the
remaining documents exactly as if the failed document were absent. -/
theorem C5_parse_failure_recoverable (file_path errMsg disease : String) :
    parse_kgml file_path (.error errMsg) disease =
      (.ok [], ["Error parsing " ++ file_path ++ ": " ++ errMsg]) ∧
    (∀ rest, processDocs ((file_path, .error errMsg, disease) :: rest) =
      processDocs rest) := by
  refine ⟨rfl, fun rest => ?_⟩
  simp [processDocs, parse_kgml]

-- C9: an entry without a `name` attribute raises out of `parse_kgml`.

/-- C9: for a well-formed document containing an entry without a `name`
attribute, `parse_kgml` raises (the `None.split` `AttributeError` is
outside the `try` block), rather than returning a list or the recoverable
empty result. -/
theorem C9_missing_name_raises (file_path disease : String)
    (entries : List Entry) (h : ∃ e ∈ entries, e.name = none) :
    (parse_kgml file_path (.ok entries) disease).1 = .error .attributeError := by
  simp only [parse_kgml]
  revert h
  induction entries with
  | nil => intro h; simp at h
  | cons e rest ih =>
    intro h
    rcases h with ⟨x, hx, hnone⟩
    rcases List.mem_cons.mp hx with h' | h'
    · subst h'
      simp [kgmlEntries, hnone]
    · rcases hn : e.name with _ | nm
      · simp [kgmlEntries, hn]
      · have hrest := ih ⟨x, h', hnone⟩
        simp [kgmlEntries, hn, hrest]

/-- C9 witness: a one-entry document whose entry lacks the `name`
attribute raises. -/
theorem C9_witness :
    (parse_kgml "doc.xml" (.ok [Entry.mk (some "3") none (some "gene")])
      "d").1 = .error .attributeError :=
  C9_missing_name_raises "doc.xml" "d" _ (by decide)

-- C4: deduplication of the annotation extractor's output.

theorem dropDuplicates_aux_nodup {α : Type} [DecidableEq α] :
    ∀ (l acc : List α), acc.Nodup →
      (l.foldl (fun acc x => if x ∈ acc then acc else acc ++ [x]) acc).Nodup := by
  intro l
  induction l with
  | nil => intro acc h; simpa using h
  | cons x xs ih =>
    intro acc h
    simp only [List.foldl_cons]
    by_cases hx : x ∈ acc
    · simpa [hx] using ih acc h
    · have h2 : (acc ++ [x]).Nodup := by
        simp [List.nodup_append, h, hx]
      simpa [hx] using ih _ h2

theorem dropDuplicates_nodup {α : Type} [DecidableEq α] (l : List α) :
    (dropDuplicates l).Nodup :=
  dropDuplicates_aux_nodup l [] (by simp)

/-- C4: any list `parse_gaf` returns has no two identical
(gene symbol, term id) pairs, whatever duplicates (in these or the other
15 columns) the source rows contain. -/
theorem C4_parse_gaf_nodup (src : Option (List String))
    (out : List (String × String)) (h : parse_gaf src = .ok out) :
    out.Nodup := by
  rcases src with _ | lines
  · exact absurd h (by simp [parse_gaf])
  · simp only [parse_gaf] at h
    rcases hr : gafRows lines with _ | ⟨r0, rest⟩
    · rw [hr] at h
      exact absurd h (by simp [gafFrame])
    · rw [hr] at h
      simp only [gafFrame] at h
      by_cases h1 : (rest.any fun r => decide (r0.length < r.length)) = true
      · rw [if_pos h1] at h
        exact absurd h (by simp)
      · rw [if_neg h1] at h
        by_cases h2 : r0.length = 17
        · rw [if_pos h2] at h
          simp only [Except.ok.injEq] at h
          exact h ▸ dropDuplicates_nodup _
        · rw [if_neg h2] at h
          exact absurd h (by simp)

/-- Two GAF data rows agreeing on `DB_Object_Symbol` and `GO_ID` but
differing in reference, evidence code, name, date and assigning database. -/
def C4witLines : List String :=
  ["!gaf-version: 2.2",
   "UniProtKB\tP04637\tTP53\tinvolved_in\tGO:0006915\tref1\tIDA\t\tP\tname1\tsyn\tprotein\ttaxon:9606\t20200101\tUniProt\t\t",
   "UniProtKB\tP04637\tTP53\tinvolved_in\tGO:0006915\tref2\tIMP\t\tP\tname2\tsyn\tprotein\ttaxon:9606\t20200202\tGO_Central\t\t"]

/-- C4 witness: on the two-row table above, `parse_gaf` returns the single
pair and that output is duplicate-free. -/
theorem C4_witness :
    parse_gaf (some C4witLines) = .ok [("TP53", "GO:0006915")] ∧
    ([(("TP53" : String), ("GO:0006915" : String))]).Nodup :=
  ⟨by rfl, C4_parse_gaf_nodup (some C4witLines) _ (by rfl)⟩

-- C6: a missing or malformed annotation source aborts the run.

theorem processDocs_ops (docs : List (String × Except String (List Entry) × String)) :
    ∀ op ∈ (processDocs docs).1, isPathwayOp op = true := by
  induction docs with
  | nil => simp [processDocs]
  | cons d rest ih =>
    rcases d with ⟨fp, src, dis⟩
    intro op hop
    simp only [processDocs] at hop
    rcases hk : parse_kgml fp src dis with ⟨res, diag⟩
    rw [hk] at hop
    rcases res with e | records
    · simp at hop
    · simp only at hop
      rcases List.mem_append.mp hop with h' | h'
      · obtain ⟨p, _, hp⟩ := List.mem_map.mp h'
        rw [← hp]; rfl
      · exact ih op h'

theorem isPathwayOp_not_assoc {op : DbOp} (h : isPathwayOp op = true) :
    isAssocOp op = false := by
  cases op <;> simp_all [isPathwayOp, isAssocOp]

theorem isPathwayOp_not_gene {op : DbOp} (h : isPathwayOp op = true) :
    isGeneOp op = false := by
  cases op <;> simp_all [isPathwayOp, isGeneOp]

/-- C6: a missing annotation source raises `FileNotFoundError` out of
`parse_gaf`; a well-tokenized table whose rows do not have 17 columns
raises the column-assignment `ValueError`; and whenever `parse_gaf`
raises, the run aborts with no annotation row ever written — `parse_gaf`
never returns a partial result. -/
theorem C6_gaf_failure_fatal :
    parse_gaf none = .error .missingFile ∧
    (∀ (lines : List String) (r0 : List String) (rest : List (List String)),
      gafRows lines = r0 :: rest → (∀ r ∈ rest, r.length ≤ r0.length) →
      ¬ r0.length = 17 → parse_gaf (some lines) = .error .columnMismatch) ∧
    (∀ docs gafSrc e, parse_gaf gafSrc = .error e →
      (∀ op ∈ (mainRun docs gafSrc).1, isAssocOp op = false) ∧
      (mainRun docs gafSrc).2 ≠ none) := by
  refine ⟨rfl, ?_, ?_⟩
  · intro lines r0 rest hrows hle h17
    have hne : ¬ ((rest.any fun r => decide (r0.length < r.length)) = true) := by
      simp only [List.any_eq_true, decide_eq_true_eq, not_exists, not_and]
      intro r hr
      exact Nat.not_lt.mpr (hle r hr)
    simp only [parse_gaf]
    rw [hrows]
    simp only [gafFrame]
    rw [if_neg hne, if_neg h17]
  · intro docs gafSrc e herr
    rcases hp : processDocs docs with ⟨ops, rest2⟩
    rcases rest2 with ⟨genes, derr⟩
    have hops := processDocs_ops docs
    rw [hp] at hops
    rcases derr with _ | ex
    · -- no document raised; the run reaches parse_gaf, which raises
      constructor
      · intro op hop
        simp only [mainRun, hp, herr] at hop
        rcases List.mem_append.mp hop with h' | h'
        · rcases List.mem_append.mp h' with h'' | h''
          · simp only [schemaOps, List.mem_cons, List.not_mem_nil,
              or_false] at h''
            rcases h'' with rfl | rfl | rfl <;> rfl
          · exact isPathwayOp_not_assoc (hops op h'')
        · obtain ⟨g, _, hg⟩ := List.mem_map.mp h'
          rw [← hg]; rfl
      · simp [mainRun, hp, herr]
    · -- a document raised first; no annotation row is written either
      constructor
      · intro op hop
        simp only [mainRun, hp] at hop
        rcases List.mem_append.mp hop with h' | h'
        · simp only [schemaOps, List.mem_cons, List.not_mem_nil,
            or_false] at h'
          rcases h' with rfl | rfl | rfl <;> rfl
        · exact isPathwayOp_not_assoc (hops op h')
      · simp [mainRun, hp]

/-- C6 witness: a missing file and a 2-column table are both fatal, and
with the missing annotation source the example run writes no annotation
row and ends in an error. -/
theorem C6_witness :
    parse_gaf none = .error .missingFile ∧
    parse_gaf (some ["a\tb"]) = .error .columnMismatch ∧
    (mainRun [] none).2 ≠ none :=
  ⟨C6_gaf_failure_fatal.1,
   C6_gaf_failure_fatal.2.1 ["a\tb"] ["a", "b"] [] (by rfl)
     (by intro r hr; simp at hr) (by decide),
   (C6_gaf_failure_fatal.2.2 [] none .missingFile rfl).2⟩

-- C7: idempotence of gene insertion.

theorem mem_insertGeneRow {g a : String} {t : List String} :
    g ∈ insertGeneRow t a ↔ g = a ∨ g ∈ t := by
  unfold insertGeneRow
  by_cases h : a ∈ t
  · rw [if_pos h]
    constructor
    · exact Or.inr
    · rintro (rfl | hg)
      · exact h
      · exact hg
  · rw [if_neg h]
    simp [List.mem_append, or_comm]

theorem count_insertGeneRow_le {g a : String} {t : List String}
    (h : t.count g ≤ 1) : (insertGeneRow t a).count g ≤ 1 := by
  unfold insertGeneRow
  by_cases ha : a ∈ t
  · rwa [if_pos ha]
  · rw [if_neg ha, List.count_append]
    by_cases hag : a = g
    · subst hag
      have : t.count a = 0 := by
        rw [List.count_eq_zero]
        exact ha
      simp [this, List.count_singleton]
    · simp [List.count_singleton', hag]
      omega

theorem insert_genes_count (g : String) :
    ∀ (data t : List String), t.count g ≤ 1 →
      (insert_genes data t).count g = if g ∈ data ∨ g ∈ t then 1 else 0 := by
  intro data
  induction data with
  | nil =>
    intro t ht
    simp only [insert_genes, List.foldl_nil, List.not_mem_nil, false_or]
    by_cases hg : g ∈ t
    · rw [if_pos hg]
      have h1 : 0 < t.count g := List.count_pos_iff.mpr hg
      omega
    · rw [if_neg hg, List.count_eq_zero]
      exact hg
  | cons a data ih =>
    intro t ht
    show (insert_genes data (insertGeneRow t a)).count g = _
    rw [ih (insertGeneRow t a) (count_insertGeneRow_le ht)]
    by_cases hc : g ∈ data ∨ g ∈ insertGeneRow t a
    · rw [if_pos hc, if_pos]
      rcases hc with h' | h'
      · exact Or.inl (List.mem_cons_of_mem a h')
      · rcases mem_insertGeneRow.mp h' with rfl | h''
        · exact Or.inl (List.mem_cons_self g data)
        · exact Or.inr h''
    · rw [if_neg hc, if_neg]
      intro hc2
      apply hc
      rcases hc2 with h' | h'
      · rcases List.mem_cons.mp h' with rfl | h''
        · exact Or.inr (mem_insertGeneRow.mpr (Or.inl rfl))
        · exact Or.inl h''
      · exact Or.inr (mem_insertGeneRow.mpr (Or.inr h'))

theorem mem_insert_genes_mono {a : String} :
    ∀ (data t : List String), a ∈ t → a ∈ insert_genes data t := by
  intro data
  induction data with
  | nil => intro t h; exact h
  | cons b data ih =>
    intro t h
    exact ih (insertGeneRow t b) (mem_insertGeneRow.mpr (Or.inr h))

theorem mem_insert_genes_self {a : String} :
    ∀ (data t : List String), a ∈ data → a ∈ insert_genes data t := by
  intro data
  induction data with
  | nil => intro t h; simp at h
  | cons b data ih =>
    intro t h
    rcases List.mem_cons.mp h with rfl | h'
    · exact mem_insert_genes_mono data (insertGeneRow t a)
        (mem_insertGeneRow.mpr (Or.inl rfl))
    · exact ih (insertGeneRow t b) h'

theorem insert_genes_of_subset :
    ∀ (data t : List String), (∀ a ∈ data, a ∈ t) → insert_genes data t = t := by
  intro data
  induction data with
  | nil => intro t _; rfl
  | cons b data ih =>
    intro t h
    show insert_genes data (insertGeneRow t b) = t
    have hb : b ∈ t := h b (List.mem_cons_self b data)
    have : insertGeneRow t b = t := by
      unfold insertGeneRow
      rw [if_pos hb]
    rw [this]
    exact ih t (fun a ha => h a (List.mem_cons_of_mem b ha))

/-- C7: gene insertion is idempotent.  Whenever the `genes` table satisfies
its primary-key invariant (at most one row per identifier), inserting a
list containing an identifier — however many times, in one call or across
calls — leaves exactly one row for that identifier; and re-running
`insert_genes` on the same list changes nothing.  `INSERT OR IGNORE` never
raises on a duplicate. -/
theorem C7_insert_genes_idempotent :
    (∀ (t : List String) (g : String) (data : List String),
      t.count g ≤ 1 → g ∈ data → (insert_genes data t).count g = 1) ∧
    (∀ (t data : List String),
      insert_genes data (insert_genes data t) = insert_genes data t) := by
  constructor
  · intro t g data ht hg
    rw [insert_genes_count g data t ht, if_pos (Or.inl hg)]
  · intro t data
    exact insert_genes_of_subset data (insert_genes data t)
      (fun a ha => mem_insert_genes_self data t ha)

/-- C7 witness: inserting `BRCA1` twice into an empty `genes` table leaves
exactly one `BRCA1` row, and repeating the whole insertion changes
nothing. -/
theorem C7_witness :
    (insert_genes ["BRCA1", "TP53", "BRCA1"] []).count "BRCA1" = 1 ∧
    insert_genes ["BRCA1", "TP53", "BRCA1"]
        (insert_genes ["BRCA1", "TP53", "BRCA1"] []) =
      insert_genes ["BRCA1", "TP53", "BRCA1"] [] :=
  ⟨C7_insert_genes_idempotent.1 [] "BRCA1" ["BRCA1", "TP53", "BRCA1"]
     (by decide) (by decide),
   C7_insert_genes_idempotent.2 [] ["BRCA1", "TP53", "BRCA1"]⟩

-- C8: idempotence of schema creation.

/-- C8: `create_tables` is idempotent — running it twice equals running it
once, and against a store in which the three tables already exist it
changes nothing; `CREATE TABLE IF NOT EXISTS` never raises. -/
theorem C8_create_tables_idempotent :
    (∀ db : Db, create_tables (create_tables db) = create_tables db) ∧
    (∀ db : Db, db.genes.isSome → db.pathways.isSome →
      db.gene_go_associations.isSome → create_tables db = db) := by
  constructor
  · intro db
    simp [create_tables]
  · intro db h1 h2 h3
    rcases db with ⟨g, p, a⟩
    rcases g with _ | g
    · simp at h1
    rcases p with _ | p
    · simp at h2
    rcases a with _ | a
    · simp at h3
    simp [create_tables]

/-- C8 witness: `create_tables` on an already-initialized populated store
returns it unchanged. -/
theorem C8_witness :
    create_tables ⟨some ["BRCA1"], some [], some [("TP53", "GO:0006915")]⟩ =
      ⟨some ["BRCA1"], some [], some [("TP53", "GO:0006915")]⟩ :=
  C8_create_tables_idempotent.2
    ⟨some ["BRCA1"], some [], some [("TP53", "GO:0006915")]⟩
    (by decide) (by decide) (by decide)

-- C10: `insert_pathways` writes only the pathways table.

/-- C10: whenever `insert_pathways` succeeds, the `genes` table and the
`gene_go_associations` table are exactly as before, for every input list
and store state (and on failure no store is produced at all). -/
theorem C10_insert_pathways_frame (data : List PathwayEntry) (db db' : Db)
    (h : insert_pathways data db = .ok db') :
    db'.genes = db.genes ∧
    db'.gene_go_associations = db.gene_go_associations := by
  rcases db with ⟨g, p, a⟩
  rcases p with _ | rows
  · exact absurd h (by simp [insert_pathways])
  · simp only [insert_pathways, Except.ok.injEq] at h
    subst h
    exact ⟨rfl, rfl⟩

/-- C10 witness: inserting one pathway row into a store leaves the other
two tables untouched. -/
theorem C10_witness :
    (Db.mk (some ["g1"]) (some [⟨some "1", "g1", some "gene", "d"⟩])
        (some [("g", "go")])).genes =
      (Db.mk (some ["g1"]) (some []) (some [("g", "go")])).genes ∧
    (Db.mk (some ["g1"]) (some [⟨some "1", "g1", some "gene", "d"⟩])
        (some [("g", "go")])).gene_go_associations =
      (Db.mk (some ["g1"]) (some []) (some [("g", "go")])).gene_go_associations :=
  C10_insert_pathways_frame [⟨some "1", "g1", some "gene", "d"⟩]
    (Db.mk (some ["g1"]) (some []) (some [("g", "go")])) _ (by rfl)

-- C3: relative order of gene and pathway writes in the run trace.

theorem pathway_before_gene_split {t1 t2 : List DbOp}
    (pf : ∀ op ∈ t2, isPathwayOp op = false)
    (gf : ∀ op ∈ t1, isGeneOp op = false) :
    ∀ i j : Fin (t1 ++ t2).length,
      isPathwayOp ((t1 ++ t2).get i) = true →
      isGeneOp ((t1 ++ t2).get j) = true → i.val < j.val := by
  intro i j hpi hgj
  have hi : i.val < t1.length := by
    by_contra hilt
    push_neg at hilt
    have hib : i.val - t1.length < t2.length := by
      have h2 := i.isLt
      simp only [List.length_append] at h2
      omega
    have he : (t1 ++ t2).get i = t2.get ⟨i.val - t1.length, hib⟩ := by
      rw [List.get_eq_getElem, List.get_eq_getElem]
      exact List.getElem_append_right hilt
    rw [he, pf _ (List.get_mem t2 _ _)] at hpi
    simp at hpi
  have hj : t1.length ≤ j.val := by
    by_contra hjlt
    push_neg at hjlt
    have he : (t1 ++ t2).get j = t1.get ⟨j.val, hjlt⟩ := by
      rw [List.get_eq_getElem, List.get_eq_getElem]
      exact List.getElem_append_left hjlt
    rw [he, gf _ (List.get_mem t1 _ _)] at hgj
    simp at hgj
  omega

/-- C3 (amended): in every run trace of `main`, every pathway-row insert
precedes every gene insert — the per-document loop writes all pathway
rows first and the accumulated gene set is inserted afterwards
(`pre_process.py:185-192`), the reverse of the claimed order. -/
theorem C3_pathways_before_genes
    (docs : List (String × Except String (List Entry) × String))
    (gafSrc : Option (List String)) :
    ∀ i j : Fin (mainRun docs gafSrc).1.length,
      isPathwayOp ((mainRun docs gafSrc).1.get i) = true →
      isGeneOp ((mainRun docs gafSrc).1.get j) = true → i.val < j.val := by
  have hops := processDocs_ops docs
  rcases hp : processDocs docs with ⟨ops, genes, derr⟩
  rw [hp] at hops
  have gf : ∀ op ∈ schemaOps ++ ops, isGeneOp op = false := by
    intro op hop
    rcases List.mem_append.mp hop with h' | h'
    · simp only [schemaOps, List.mem_cons, List.not_mem_nil, or_false] at h'
      rcases h' with rfl | rfl | rfl <;> rfl
    · exact isPathwayOp_not_gene (hops op h')
  rcases derr with _ | ex
  · rcases hg : parse_gaf gafSrc with ge | pairs
    · -- the annotation source is invalid: the trace ends after the gene
      -- inserts
      have htr : (mainRun docs gafSrc).1 =
          (schemaOps ++ ops) ++ (dropDuplicates genes).map DbOp.insertGene := by
        simp [mainRun, hp, hg]
      rw [htr]
      refine pathway_before_gene_split ?_ gf
      intro op hop
      obtain ⟨g, _, hgg⟩ := List.mem_map.mp hop
      rw [← hgg]; rfl
    · -- successful run
      have htr : (mainRun docs gafSrc).1 =
          (schemaOps ++ ops) ++
            ((dropDuplicates genes).map DbOp.insertGene ++
              (pairs.map (fun p => DbOp.insertAssoc p.1 p.2) ++
                [DbOp.commit, DbOp.close])) := by
        simp [mainRun, hp, hg, List.append_assoc]
      rw [htr]
      refine pathway_before_gene_split ?_ gf
      intro op hop
      rcases List.mem_append.mp hop with h' | h'
      · obtain ⟨g, _, hgg⟩ := List.mem_map.mp h'
        rw [← hgg]; rfl
      · rcases List.mem_append.mp h' with h'' | h''
        · obtain ⟨p, _, hpp⟩ := List.mem_map.mp h''
          rw [← hpp]; rfl
        · simp only [List.mem_cons, List.not_mem_nil, or_false] at h''
          rcases h'' with rfl | rfl <;> rfl
  · -- a document raised: the trace contains no gene insert at all
    have htr : (mainRun docs gafSrc).1 = (schemaOps ++ ops) ++ [] := by
      simp [mainRun, hp]
    rw [htr]
    refine pathway_before_gene_split ?_ gf
    intro op hop
    simp at hop

/-- The one-document run used to exhibit the write order of `main`:
one entry, one gene token, annotation source missing. -/
def C3cexDocs : List (String × Except String (List Entry) × String) :=
  [("doc.xml", .ok [⟨some "1", some "g1", some "gene"⟩], "d")]

/-- C3 counterexample: in the run on `C3cexDocs` the trace has a
pathway-row insert at position 3 and a gene insert at position 4, so it is
not the case that every gene insert precedes every pathway insert. -/
theorem C3_counterexample :
    ¬ (∀ i j : Fin (mainRun C3cexDocs none).1.length,
        isGeneOp ((mainRun C3cexDocs none).1.get i) = true →
        isPathwayOp ((mainRun C3cexDocs none).1.get j) = true →
        i.val < j.val) := by
  decide

/-- C3 witness: in the same run, the pathway insert (position 3) does
precede the gene insert (position 4). -/
theorem C3_witness :
    isPathwayOp ((mainRun C3cexDocs none).1.get ⟨3, by decide⟩) = true ∧
    isGeneOp ((mainRun C3cexDocs none).1.get ⟨4, by decide⟩) = true ∧
    (3 : Nat) < 4 :=
  ⟨by decide, by decide,
   C3_pathways_before_genes C3cexDocs none ⟨3, by decide⟩ ⟨4, by decide⟩
     (by decide) (by decide)⟩
